import Mathlib

/-!
# Verification of the electrician-tool matching and estimation engine

A shallow embedding, in Lean 4, of the matching/estimation core of the
`electrician-tool` repository:

* `src/labor_matcher.py` — `normalize_description`, `extract_size`,
  `extract_size_from_item`, `LaborMatcher` (`search`, `best_match`,
  `_extract_keywords`) and the `SIZE_ALIASES` / `TYPE_ALIASES` tables;
* `src/cost_calculator.py` — `parse_quantity`, `calculate_labor_extension`;
* the `thefuzz`/`rapidfuzz` `token_set_ratio` scorer that `search` calls.

Python floats are modelled as exact rationals (`ℚ`); Python strings over
their ASCII fragment as Lean `String`/`List Char` (every concrete input in
this development is ASCII).  Fallible Python code (an uncaught exception)
is modelled by `Option`, with `none` for the raised exception.
-/

set_option maxRecDepth 2000
set_option linter.unusedVariables false

namespace ElectricianTool

/-! ## Python string primitives (ASCII fragment) -/

/-- The characters Python's `str.strip()` / `\s` treat as whitespace
(ASCII fragment of the Unicode whitespace set). -/
def pyIsSpace (c : Char) : Bool :=
  c == ' ' || c == '\t' || c == '\n' || c == '\x0d' || c == '\x0b' || c == '\x0c'

/-- Python `str.strip()`: drop whitespace from both ends. -/
def pyStrip (s : List Char) : List Char :=
  ((s.dropWhile pyIsSpace).reverse.dropWhile pyIsSpace).reverse

/-- Python `str.lower()` on ASCII text. -/
def pyLower (s : List Char) : List Char :=
  s.map Char.toLower

/-- Python `str.split()` with no argument: split on whitespace runs,
dropping empty pieces.  `cur` accumulates the current word, reversed. -/
def pySplitWsGo (cur : List Char) : List Char → List (List Char)
  | [] => if cur.isEmpty then [] else [cur.reverse]
  | c :: cs =>
    if pyIsSpace c then
      (if cur.isEmpty then [] else [cur.reverse]) ++ pySplitWsGo [] cs
    else pySplitWsGo (c :: cur) cs

def pySplitWs (s : List Char) : List (List Char) :=
  pySplitWsGo [] s

/-- `re.sub(r'\s+', ' ', s)`: collapse each whitespace run to one space.
`inRun` records whether the previous character was whitespace. -/
def collapseWsGo (inRun : Bool) : List Char → List Char
  | [] => []
  | c :: cs =>
    if pyIsSpace c then
      (if inRun then [] else [' ']) ++ collapseWsGo true cs
    else c :: collapseWsGo false cs

def collapseWs (s : List Char) : List Char :=
  collapseWsGo false s

/-- `needle.isPrefixOf hay` written out structurally. -/
def isPrefixList : List Char → List Char → Bool
  | [], _ => true
  | _ :: _, [] => false
  | a :: as, b :: bs => a == b && isPrefixList as bs

/-- Python's substring test `needle in hay`. -/
def containsSub (hay needle : List Char) : Bool :=
  match hay with
  | [] => needle.isEmpty
  | _ :: t => isPrefixList needle hay || containsSub t needle

/-- Python `str.replace(c, rep)` for a single-character pattern. -/
def replaceChar (c : Char) (rep : List Char) (s : List Char) : List Char :=
  s.foldr (fun d acc => (if d == c then rep else [d]) ++ acc) []

/-- Python `str.replace(needle, rep)` for a non-empty multi-character
pattern: replace non-overlapping occurrences left to right.  `fuel` is an
upper bound on the number of scan steps (each step consumes at least one
character of `s`), making the recursion structural. -/
def replaceSubGo (needle rep : List Char) : ℕ → List Char → List Char
  | 0, s => s
  | _ + 1, [] => []
  | fuel + 1, c :: cs =>
    if !needle.isEmpty && isPrefixList needle (c :: cs) then
      rep ++ replaceSubGo needle rep fuel ((c :: cs).drop needle.length)
    else c :: replaceSubGo needle rep fuel cs

def replaceSub (needle rep : List Char) (s : List Char) : List Char :=
  replaceSubGo needle rep s.length s

/-- A regex word character (`\w`), ASCII fragment. -/
def wordChar (c : Char) : Bool :=
  c.isAlphanum || c == '_'

/-- Whether a regex word boundary `\b` sits between an optional left
character and an optional right character. -/
def wordBoundary (a b : Option Char) : Bool :=
  (match a with | some c => wordChar c | none => false) !=
  (match b with | some c => wordChar c | none => false)

/-- `re.sub(r'\b' + re.escape(pat) + r'\b', rep, ·)` for a literal
`pat`: scanning left to right over the original string, replace each
non-overlapping occurrence of `pat` whose two ends sit on `\b` word
boundaries.  `prev` is the original character just before the scan
position. -/
def wordSubGo (pat rep : List Char) : ℕ → Option Char → List Char → List Char
  | 0, _, s => s
  | _ + 1, _, [] => []
  | fuel + 1, prev, c :: cs =>
    if !pat.isEmpty && isPrefixList pat (c :: cs) &&
        wordBoundary prev pat.head? &&
        wordBoundary pat.getLast? (((c :: cs).drop pat.length).head?) then
      rep ++ wordSubGo pat rep fuel pat.getLast? ((c :: cs).drop pat.length)
    else c :: wordSubGo pat rep fuel (some c) cs

def wordSub (pat rep : List Char) (s : List Char) : List Char :=
  wordSubGo pat rep s.length none s

/-! ## `labor_matcher.py`: normalization and feature extraction -/

/-- `SIZE_ALIASES` of `labor_matcher.py`, in source (dict-insertion) order. -/
def SIZE_ALIASES : List (String × String) :=
  [(".5", "1/2"), ("0.5", "1/2"), (".75", "3/4"), ("0.75", "3/4"),
   ("1.25", "1 1/4"), ("1.5", "1 1/2"), ("2.5", "2 1/2"), ("3.5", "3 1/2")]

/-- `TYPE_ALIASES` of `labor_matcher.py`, in source (dict-insertion) order. -/
def TYPE_ALIASES : List (String × List String) :=
  [("emt", ["EMT CONDUIT", "EMT"]),
   ("rigid", ["RIGID STEEL CONDUIT", "RIGID CONDUIT"]),
   ("pvc", ["PVC CONDUIT"]),
   ("mc", ["MC CABLE"]),
   ("romex", ["NON-METALLIC SHEATHED CABLE", "NM CABLE"]),
   ("thhn", ["WIRE"]),
   ("awg", ["WIRE"]),
   ("coupling", ["COUPLINGS", "COUPLING"]),
   ("connector", ["CONNECTORS", "CONNECTOR"]),
   ("box", ["SQUARE BOXES", "OCTAGON BOXES", "SWITCH BOXES", "PLASTIC BOXES"]),
   ("breaker", ["PLUG-IN CIRCUIT BREAKERS", "BOLT-ON BREAKERS"]),
   ("strut", ["SUPPORT CHANNEL (STRUT)", "SUPPORT CHANNEL"]),
   ("beam clamp", ["BEAM CLAMP"]),
   ("wire nut", ["WIRENUTS"]),
   ("fan", ["FANS"]),
   ("switch", ["SWITCHES"]),
   ("receptacle", ["RECEPTACLES"])]

/-- `normalize_description`: lower-case and strip, turn `"` into ` inch `
and `'` into a space, collapse whitespace, then apply each `SIZE_ALIASES`
rewrite as a `\b`-delimited `re.sub`, in dict order. -/
def normalize_description (desc : String) : String :=
  let d0 := pyStrip (pyLower desc.data)
  let d1 := replaceChar '"' " inch ".data d0
  let d2 := replaceChar '\'' " ".data d1
  let d3 := pyStrip (collapseWs d2)
  String.mk (SIZE_ALIASES.foldl (fun d al => wordSub al.1.data al.2.data d) d3)

/-- The `\d+\s+\d+/\d+` and `\d+/\d+` alternatives of the size pattern,
tried at the start of `s` in that (regex-alternation) order.  Returns the
matched text and the remainder of the string. -/
def sizeMixedOrFrac (s : List Char) : Option (List Char × List Char) :=
  let d1 := s.takeWhile Char.isDigit
  let r1 := s.dropWhile Char.isDigit
  if d1 = [] then none else
  let w := r1.takeWhile pyIsSpace
  let r2 := r1.dropWhile pyIsSpace
  let d2 := r2.takeWhile Char.isDigit
  let r3 := r2.dropWhile Char.isDigit
  let frac : Option (List Char × List Char) :=
    match r1 with
    | '/' :: r4 =>
      let d5 := r4.takeWhile Char.isDigit
      if d5 = [] then none else some (d1 ++ '/' :: d5, r4.dropWhile Char.isDigit)
    | _ => none
  match w, d2, r3 with
  | _ :: _, _ :: _, '/' :: r4 =>
    let d3 := r4.takeWhile Char.isDigit
    if d3 = [] then frac
    else some (d1 ++ w ++ d2 ++ '/' :: d3, r4.dropWhile Char.isDigit)
  | _, _, _ => frac

/-- One attempt of `re.search(r'(\d+\s+\d+/\d+|\d+/\d+|\d+)', ·)` at a
position whose first character is a digit: mixed number, then fraction,
then bare integer. -/
def sizeAtPos (s : List Char) : List Char :=
  match sizeMixedOrFrac s with
  | some (t, _) => t
  | none => s.takeWhile Char.isDigit

/-- `extract_size`: leftmost match of the size pattern (every alternative
starts with a digit, so the leftmost match starts at the first digit). -/
def extractSizeGo : List Char → List Char
  | [] => []
  | c :: cs => if c.isDigit then sizeAtPos (c :: cs) else extractSizeGo cs

def extract_size (desc : String) : String :=
  String.mk (extractSizeGo desc.data)

/-- `extract_size_from_item`: strip `"` characters and `''` pairs, trim,
then `re.match(r'^(\d+\s+\d+/\d+|\d+/\d+)\s*$', ·)` (anchored, without the
bare-integer alternative). -/
def extract_size_from_item (item : String) : String :=
  let it := pyStrip (replaceSub "''".data [] (item.data.filter (fun c => c != '"')))
  match sizeMixedOrFrac it with
  | some (t, rest) => if rest.all pyIsSpace then String.mk t else ""
  | none => ""

/-- The `stop_words` set of `LaborMatcher._extract_keywords`. -/
def stop_words : List String :=
  ["with", "and", "for", "the", "a", "an", "or", "in", "on",
   "to", "of", "inch", "feet", "ft", "ea", "each", "per"]

/-- `LaborMatcher._extract_keywords`: whitespace tokens, dropping stop
words and tokens of length ≤ 1.  A Python *list*: order and duplicates
are preserved. -/
def _extract_keywords (desc : String) : List String :=
  ((pySplitWs desc.data).map String.mk).filter
    (fun w => !stop_words.contains w && decide (w.length > 1))

/-! ## `thefuzz.fuzz.token_set_ratio`

`LaborMatcher.search` calls `fuzz.token_set_ratio` from `thefuzz`, which
delegates to `rapidfuzz`: both inputs are processed by `default_process`
(non-alphanumeric characters replaced with spaces, lower-cased, trimmed),
split into token *sets*, and scored by the classic token-set scheme: with
`t0` the sorted intersection, `t1 = t0 ++ sorted (tokens₁ \ tokens₂)` and
`t2 = t0 ++ sorted (tokens₂ \ tokens₁)` joined by single spaces, the
result is the maximum of the three pairwise normalized-indel ratios
`100·2·lcs(a,b)/(|a|+|b|)`, rounded to the nearest integer (ties to even,
Python `round`). -/

/-- `rapidfuzz.utils.default_process` (ASCII fragment). -/
def full_process (s : String) : List Char :=
  pyStrip (s.data.map (fun c => if c.isAlphanum then c.toLower else ' '))

/-- Python string comparison `<` on code points. -/
def lexLt : List Char → List Char → Bool
  | [], [] => false
  | [], _ :: _ => true
  | _ :: _, [] => false
  | a :: as, b :: bs => if a == b then lexLt as bs else decide (a < b)

/-- Insert into a sorted duplicate-free list, skipping duplicates. -/
def insSorted (x : List Char) : List (List Char) → List (List Char)
  | [] => [x]
  | y :: ys => if x == y then y :: ys else if lexLt x y then x :: y :: ys else y :: insSorted x ys

/-- Python `sorted(set(tokens))`. -/
def dedupSort (l : List (List Char)) : List (List Char) :=
  l.foldl (fun acc x => insSorted x acc) []

/-- One dynamic-programming row step for the longest common subsequence:
given character `c`, the remaining characters of `b` with the matching
tail of the previous row, and the value to the left in the new row. -/
def lcsRowGo (c : Char) : List Char → List ℕ → ℕ → List ℕ
  | [], _, _ => []
  | _ :: _, [], _ => []
  | bj :: bs, pj :: prest, left =>
    let nj := if c == bj then pj + 1 else max left (prest.headD 0)
    nj :: lcsRowGo c bs prest nj

/-- Length of a longest common subsequence, by row dynamic programming. -/
def lcs (a b : List Char) : ℕ :=
  (a.foldl (fun row c => 0 :: lcsRowGo c b row 0) (List.replicate (b.length + 1) 0)).getD
    b.length 0

/-- `rapidfuzz` normalized-indel `ratio` as an exact rational in
`[0, 100]`: `100·(|a|+|b|−dist)/(|a|+|b|)` with the indel distance
`|a|+|b|−2·lcs a b`; `100` when both strings are empty. -/
def ratioR (a b : List Char) : ℚ :=
  if a.length + b.length = 0 then 100
  else 100 * (2 * lcs a b) / (a.length + b.length)

/-- Python 3 `round` to the nearest integer, ties to even. -/
def roundHalfEven (x : ℚ) : ℤ :=
  let f := ⌊x⌋
  if x - f < 1/2 then f
  else if 1/2 < x - f then f + 1
  else if f % 2 = 0 then f else f + 1

/-- `thefuzz.fuzz.token_set_ratio(s1, s2)` (with its default
`full_process=True`), an integer in `[0, 100]`. -/
def token_set_ratio (s1 s2 : String) : ℕ :=
  let t1 := dedupSort (pySplitWs (full_process s1))
  let t2 := dedupSort (pySplitWs (full_process s2))
  let sect := t1.filter (fun x => t2.contains x)
  let diff1 := t1.filter (fun x => !t2.contains x)
  let diff2 := t2.filter (fun x => !t1.contains x)
  let s0 := List.intercalate [' '] sect
  let c1 := pyStrip (s0 ++ ' ' :: List.intercalate [' '] diff1)
  let c2 := pyStrip (s0 ++ ' ' :: List.intercalate [' '] diff2)
  (roundHalfEven (max (ratioR s0 c1) (max (ratioR s0 c2) (ratioR c1 c2)))).toNat

example : token_set_ratio "3/4 emt" "emt conduit emt 3/4" = 100 := by
  with_unfolding_all decide
example : token_set_ratio "emt box switch fan" "pvc conduit switches fans square boxes emt" = 60 := by
  with_unfolding_all decide
example : token_set_ratio "new york mets vs atlanta braves" "atlanta braves vs new york mets" = 100 := by
  with_unfolding_all decide

example : normalize_description "3/4\" EMT  Conduit" = "3/4 inch emt conduit" := by decide
example : normalize_description "1.25 pvc" = "1 1/4 pvc" := by decide
example : normalize_description ".75 emt" = ".75 emt" := by decide
example : normalize_description "1.5 emt" = "11/2 emt" := by decide
example : normalize_description "x.75" = "x3/4" := by decide
example : extract_size "beam clamp with 1/4 hole" = "1/4" := by decide
example : extract_size "1 1/2 emt" = "1 1/2" := by decide
example : extract_size "abc" = "" := by decide
example : extract_size_from_item "3/4\"" = "3/4" := by decide
example : extract_size_from_item "12" = "" := by decide
example : _extract_keywords "3/4 emt with coupling a" = ["3/4", "emt", "coupling"] := by decide

/-! ## `cost_calculator.py`: quantity parsing and the extension formula -/

/-- Decimal value of a digit string. -/
def digitsToNat (ds : List Char) : ℕ :=
  ds.foldl (fun a c => 10 * a + (c.toNat - 48)) 0

/-- The unsigned part of CPython's `float(str)` grammar restricted to
finite decimals: `digits [. digits]`, `. digits`, each with an optional
`e`/`E` exponent.  `inf`, `nan` and digit-group underscores (never
produced by the callers modelled here) are outside this fragment and are
mapped to `none`, like any other parse failure. -/
def pyFloatMag (t : List Char) : Option ℚ :=
  let ip := t.takeWhile Char.isDigit
  let t2 := t.dropWhile Char.isDigit
  let fp := match t2 with
    | '.' :: r => r.takeWhile Char.isDigit
    | _ => []
  let t3 := match t2 with
    | '.' :: r => r.dropWhile Char.isDigit
    | _ => t2
  if ip.isEmpty && fp.isEmpty then none
  else
    let mant : ℚ := (digitsToNat ip : ℚ) + (digitsToNat fp : ℚ) / ((10 : ℚ) ^ fp.length)
    match t3 with
    | [] => some mant
    | e :: r =>
      if e == 'e' || e == 'E' then
        let pos : Bool := match r with | '-' :: _ => false | _ => true
        let r1 := match r with | '+' :: rr => rr | '-' :: rr => rr | _ => r
        let ed := r1.takeWhile Char.isDigit
        if ed.isEmpty || !(r1.dropWhile Char.isDigit).isEmpty then none
        else some (if pos then mant * (10 : ℚ) ^ digitsToNat ed
                   else mant / (10 : ℚ) ^ digitsToNat ed)
      else none

/-- CPython `float(str)`: strip whitespace, optional sign, then the
unsigned grammar of `pyFloatMag`.  `none` models the `ValueError`. -/
def pyFloat (s : String) : Option ℚ :=
  match pyStrip s.data with
  | '+' :: r => pyFloatMag r
  | '-' :: r => (pyFloatMag r).map (fun v => -v)
  | t => pyFloatMag t

/-- The unit words of the quantity regex, in alternation order. -/
def QTY_UNITS : List String := ["feet", "ft", "foot", "ea", "each", "lot", "box"]

/-- `re.match(r'([\d,]+\.?\d*)\s*(feet|ft|foot|ea|each|lot|box)?', s, re.I)`
on an already-stripped string: returns the numeric-token group and the
(lower-cased) unit group, `""` when the optional unit group is absent.
The leading `[\d,]+` must be non-empty; the alternation takes the first
unit word that matches a prefix of the remainder, case-insensitively. -/
def qtyMatch (s : List Char) : Option (List Char × String) :=
  let run1 := s.takeWhile (fun c => c.isDigit || c == ',')
  let r1 := s.dropWhile (fun c => c.isDigit || c == ',')
  if run1.isEmpty then none
  else
    let hasDot := isPrefixList ['.'] r1
    let dot : List Char := if hasDot then ['.'] else []
    let r2 := if hasDot then r1.tail else r1
    let run2 := r2.takeWhile Char.isDigit
    let r3 := r2.dropWhile Char.isDigit
    let r4 := (r3.dropWhile pyIsSpace)
    let unit := QTY_UNITS.find? (fun u => isPrefixList u.data (pyLower r4))
    some (run1 ++ dot ++ run2, unit.getD "")

/-- `parse_quantity` of `cost_calculator.py`.  `none` models an uncaught
exception: when the regex matches, `float(...)` on the comma-stripped
group is *outside* the `try` block, so its `ValueError` propagates; the
bare-number fallback catches its own `ValueError` and returns `(0, '')`. -/
def parse_quantity (qty_str : String) : Option (ℚ × String) :=
  let s := pyStrip qty_str.data
  match qtyMatch s with
  | some (g1, unit) =>
    (pyFloat (String.mk (g1.filter (fun c => c != ',')))).map (fun v => (v, unit))
  | none =>
    match pyFloat (String.mk (s.filter (fun c => c != ','))) with
    | some v => some (v, "")
    | none => some (0, "")

/-- `calculate_labor_extension` of `cost_calculator.py`.  The
`qty_unit` parameter is accepted and ignored, as in the source. -/
def calculate_labor_extension (qty : ℚ) (qty_unit : String) (labor_value : ℚ)
    (labor_unit : String) : ℚ :=
  if labor_unit = "E" then qty * labor_value
  else if labor_unit = "C" then (qty / 100) * labor_value
  else if labor_unit = "M" then (qty / 1000) * labor_value
  else qty * labor_value

example : parse_quantity "2,40 feet" = some (240, "feet") := by with_unfolding_all decide
example : parse_quantity "240 feet" = some (240, "feet") := by with_unfolding_all decide
example : parse_quantity "40" = some (40, "") := by with_unfolding_all decide
example : parse_quantity "garbage" = some (0, "") := by with_unfolding_all decide
example : parse_quantity "," = none := by with_unfolding_all decide
example : parse_quantity "-5" = some (-5, "") := by with_unfolding_all decide
example : parse_quantity "250 feet" = some (250, "feet") := by with_unfolding_all decide
example : parse_quantity "12 each" = some (12, "ea") := by with_unfolding_all decide
example : parse_quantity "1.5" = some (3/2, "") := by with_unfolding_all decide
example : calculate_labor_extension 250 "feet" 5 "C" = 25/2 := by with_unfolding_all decide

/-! ## `labor_matcher.py`: the `LaborMatcher` class -/

/-- One row of the labor-unit reference table, as decoded by
`csv.DictReader` from the columns
`Section, Category, Item, Easy, Average, Difficult, Remodel, Old_Work, Unit`. -/
structure LaborEntry where
  Section : String
  Category : String
  Item : String
  Easy : String
  Average : String
  Difficult : String
  Remodel : String
  Old_Work : String
  Unit : String
deriving DecidableEq

/-- `LaborMatcher`: holds the decoded reference table (`self.entries`). -/
structure LaborMatcher where
  entries : List LaborEntry
deriving DecidableEq

/-- `LaborMatcher.__init__` / `load_db` after the CSV file has been read
and decoded: the rows are stored as-is, with no emptiness check.  (The
file `open` itself — which raises on an unloadable path — is I/O and sits
outside this pure embedding.) -/
def LaborMatcher.init (rows : List LaborEntry) : LaborMatcher :=
  ⟨rows⟩

/-- `entry['Section'].lower()`. -/
def sectionLower (e : LaborEntry) : String :=
  String.mk (pyLower e.Section.data)

/-- `entry['Category'].lower()`. -/
def categoryLower (e : LaborEntry) : String :=
  String.mk (pyLower e.Category.data)

/-- `entry['Item'].lower().replace('"', '')`. -/
def itemLower (e : LaborEntry) : String :=
  String.mk ((pyLower e.Item.data).filter (fun c => c != '"'))

/-- The *combined text* `f"{section_lower} {category_lower} {item_lower}"`. -/
def combinedText (e : LaborEntry) : String :=
  sectionLower e ++ " " ++ categoryLower e ++ " " ++ itemLower e

/-- `section_lower.split()` as strings. -/
def sectionWords (e : LaborEntry) : List String :=
  (pySplitWs (sectionLower e).data).map String.mk

/-- A search result `(entry, score, match_reason)`. -/
abbrev MatchResult := LaborEntry × ℚ × String

/-- The type-alias loop of `search`: for each alias whose term occurs in
the query, `+40` and a reason if any of its canonical fragments occurs in
the combined text (the inner `break` makes the target loop a pure
existence test, so each alias is counted at most once). -/
def aliasFold (query_norm combined : String) (acc : ℚ × List String) : ℚ × List String :=
  TYPE_ALIASES.foldl (fun acc al =>
    if containsSub query_norm.data al.1.data &&
        al.2.any (fun t => containsSub combined.data (pyLower t.data)) then
      (acc.1 + 40, acc.2 ++ ["type_match:" ++ al.1])
    else acc) acc

/-- `conduit_types` of `search`, in source order. -/
def conduit_types : List String := ["emt", "rigid", "pvc", "imc", "ent", "mc"]

/-- The first conduit type occurring in the query as a whole word
(`query_conduit` of `search`). -/
def queryConduit (query_norm : String) : Option String :=
  conduit_types.find? (fun ct => ((pySplitWs query_norm.data).map String.mk).contains ct)

/-- The conduit-conflict loop of `search`: if the query names a conduit
type, `−25` and a reason for every *other* conduit type occurring in the
entry's section as a whole word. -/
def conduitFold (query_norm : String) (e : LaborEntry) (acc : ℚ × List String) :
    ℚ × List String :=
  match queryConduit query_norm with
  | none => acc
  | some qc =>
    conduit_types.foldl (fun acc ct =>
      if ct != qc && (sectionWords e).contains ct then
        (acc.1 - 25, acc.2 ++ ["wrong_type_penalty:" ++ ct])
      else acc) acc

/-- `entry_size` of `search`: `extract_size_from_item(entry['Item'])`,
falling back to `extract_size(item_lower)`. -/
def entrySize (e : LaborEntry) : String :=
  let s := extract_size_from_item e.Item
  if s = "" then extract_size (itemLower e) else s

/-- The size-match step of `search`: `+30` and a reason when the query
yields a size and the entry's size equals it exactly. -/
def sizeStage (query_size : String) (e : LaborEntry) (acc : ℚ × List String) :
    ℚ × List String :=
  if query_size ≠ "" then
    if entrySize e = query_size then
      (acc.1 + 30, acc.2 ++ ["size_match:" ++ query_size])
    else acc
  else acc

/-- The keyword loop of `search`: `+15` and a reason for each element of
the keyword *list* occurring in the combined text as a substring. -/
def kwFold (keywords : List String) (combined : String) (acc : ℚ × List String) :
    ℚ × List String :=
  keywords.foldl (fun acc kw =>
    if containsSub combined.data kw.data then
      (acc.1 + 15, acc.2 ++ ["keyword:" ++ kw])
    else acc) acc

/-- The fuzzy step of `search`: `score += fuzzy_score * 0.3`, and a reason
carrying the ratio when it exceeds 60. -/
def fuzzyStage (query_norm combined : String) (acc : ℚ × List String) : ℚ × List String :=
  let f := token_set_ratio query_norm combined
  (acc.1 + (f : ℚ) * (3 / 10),
   if f > 60 then acc.2 ++ ["fuzzy:" ++ toString f] else acc.2)

/-- The per-entry body of the `search` loop: score and reasons for one
entry, signals applied in source order (type aliases, conduit conflict,
size, keywords, fuzzy similarity) starting from `score = 0`. -/
def entryScore (query_norm query_size : String) (keywords : List String) (e : LaborEntry) :
    ℚ × List String :=
  let combined := combinedText e
  fuzzyStage query_norm combined
    (kwFold keywords combined
      (sizeStage query_size e
        (conduitFold query_norm e
          (aliasFold query_norm combined (0, [])))))

/-- Python 3 `round(x, 1)`: round to one decimal digit, ties to even. -/
def pyRound1 (x : ℚ) : ℚ :=
  (roundHalfEven (10 * x) : ℚ) / 10

/-- One candidate of `search`: kept only when its raw score exceeds 20,
carrying the rounded score and the comma-joined reasons. -/
def candidateOf (query_norm query_size : String) (keywords : List String) (e : LaborEntry) :
    Option MatchResult :=
  let sr := entryScore query_norm query_size keywords e
  if 20 < sr.1 then some (e, pyRound1 sr.1, String.intercalate ", " sr.2) else none

/-- The candidate list of `search`, in reference-table order (`results`
just before the final sort). -/
def scoredCandidates (m : LaborMatcher) (query : String) : List MatchResult :=
  let query_norm := normalize_description query
  m.entries.filterMap
    (candidateOf query_norm (extract_size query_norm) (_extract_keywords query_norm))

/-- The sort relation of `results.sort(key=lambda x: x[1], reverse=True)`:
descending by stored score. -/
def scoreGE (a b : MatchResult) : Prop :=
  b.2.1 ≤ a.2.1

instance : DecidableRel scoreGE :=
  fun a b => inferInstanceAs (Decidable (b.2.1 ≤ a.2.1))

instance : IsTotal MatchResult scoreGE :=
  ⟨fun a b => le_total b.2.1 a.2.1⟩

instance : IsTrans MatchResult scoreGE :=
  ⟨fun _ _ _ h1 h2 => le_trans h2 h1⟩

/-- `LaborMatcher.search`: score every entry, keep those above 20, sort
by score descending (Python's sort is stable, as is insertion sort), and
return the first `top_n`. -/
def search (m : LaborMatcher) (query : String) (top_n : ℕ) : List MatchResult :=
  (List.insertionSort scoreGE (scoredCandidates m query)).take top_n

/-- `LaborMatcher.best_match`: the single best result with its confidence
`min(100, raw_score)`, or `(None, 0, "No match found")`. -/
def best_match (m : LaborMatcher) (query : String) : Option LaborEntry × ℚ × String :=
  match search m query 1 with
  | [] => (none, 0, "No match found")
  | (e, s, r) :: _ => (some e, min 100 s, r)

/-! ### Concrete reference entries used as witnesses -/

/-- The EMT conduit row of the end-to-end scenario in the specification. -/
def entryEMT : LaborEntry :=
  ⟨"EMT CONDUIT", "EMT", "3/4\"", "4.0", "5.0", "6.5", "7.0", "8.0", "C"⟩

/-- A minimal entry whose section is exactly `emt`. -/
def entryA : LaborEntry :=
  ⟨"emt", "", "", "", "", "", "", "", "E"⟩

/-- An entry in a PVC section that accumulates many alias bonuses. -/
def entryB : LaborEntry :=
  ⟨"PVC CONDUIT", "SWITCHES FANS SQUARE BOXES", "EMT", "", "", "", "", "", "E"⟩

/-- A one-entry matcher. -/
def wm : LaborMatcher := ⟨[entryEMT]⟩

example : (entryScore "3/4 emt" "3/4" ["3/4", "emt"] entryEMT).1 = 130 := by
  with_unfolding_all decide
example : best_match wm "3/4 emt" =
    (some entryEMT, 100, "type_match:emt, size_match:3/4, keyword:3/4, keyword:emt, fuzzy:100") := by
  with_unfolding_all decide
example : best_match ⟨[]⟩ "3/4 emt" = (none, 0, "No match found") := by
  with_unfolding_all decide

example :
    (entryScore (normalize_description "emt box switch fan") "" ["emt", "box", "switch", "fan"]
      entryA).1 = 85 := by
  with_unfolding_all decide
example :
    (entryScore (normalize_description "emt box switch fan") "" ["emt", "box", "switch", "fan"]
      entryB).1 = 213 := by
  with_unfolding_all decide
example : (best_match ⟨[entryA, entryB]⟩ "emt box switch fan").1 = some entryB := by
  with_unfolding_all decide

/-- The number of conduit-conflict penalties an entry receives for a
query: when the query names a conduit type, the number of *other*
conduit-type tokens among the entry's section words. -/
def conflictCount (query_norm : String) (e : LaborEntry) : ℕ :=
  match queryConduit query_norm with
  | none => 0
  | some qc => conduit_types.countP (fun ct => ct != qc && (sectionWords e).contains ct)

/-- The size-bonus contribution of `search` as a standalone value. -/
def sizeDelta (query_size : String) (e : LaborEntry) : ℚ :=
  if query_size ≠ "" ∧ entrySize e = query_size then 30 else 0

/-- Modelled from the spec: the same per-entry scorer *without* the
conduit-type conflict penalty of §4.3 rule 2 — the comparison scorer used
to state what the penalty contributes.  All other signals are the stages
of `entryScore` unchanged. -/
def entryScoreNoPenalty (query_norm query_size : String) (keywords : List String)
    (e : LaborEntry) : ℚ × List String :=
  let combined := combinedText e
  fuzzyStage query_norm combined
    (kwFold keywords combined
      (sizeStage query_size e
        (aliasFold query_norm combined (0, []))))

/-! ## Helper lemmas -/

lemma foldl_fst_delta {α : Type} (f : (ℚ × List String) → α → (ℚ × List String))
    (g : α → ℚ) (hf : ∀ acc x, (f acc x).1 = acc.1 + g x) :
    ∀ (l : List α) (acc : ℚ × List String), (l.foldl f acc).1 = acc.1 + (l.map g).sum := by
  intro l
  induction l with
  | nil => intro acc; simp
  | cons x xs ih =>
    intro acc
    rw [List.foldl_cons, ih (f acc x), hf]
    simp [add_assoc]

lemma sum_map_ite {α : Type} (p : α → Bool) (c : ℚ) (l : List α) :
    (l.map (fun x => if p x then c else 0)).sum = c * l.countP p := by
  induction l with
  | nil => simp
  | cons x xs ih =>
    by_cases h : p x <;>
      simp only [List.map_cons, List.sum_cons, List.countP_cons, h, if_true, if_false, ih,
        Bool.false_eq_true, Nat.cast_add, Nat.cast_one] <;>
      push_cast <;> ring

lemma aliasFold_fst (qn cb : String) (acc : ℚ × List String) :
    (aliasFold qn cb acc).1 = acc.1 +
      40 * (TYPE_ALIASES.countP (fun al => containsSub qn.data al.1.data &&
        al.2.any (fun t => containsSub cb.data (pyLower t.data)))) := by
  unfold aliasFold
  rw [foldl_fst_delta _
    (fun al => if containsSub qn.data al.1.data &&
      al.2.any (fun t => containsSub cb.data (pyLower t.data)) then (40 : ℚ) else 0)
    (by intro acc x; dsimp only; split <;> simp), sum_map_ite]

lemma conduitFold_fst (qn : String) (e : LaborEntry) (acc : ℚ × List String) :
    (conduitFold qn e acc).1 = acc.1 - 25 * conflictCount qn e := by
  unfold conduitFold conflictCount
  cases queryConduit qn with
  | none => simp
  | some qc =>
    rw [foldl_fst_delta _
      (fun ct => if ct != qc && (sectionWords e).contains ct then (-25 : ℚ) else 0)
      (by intro acc x; dsimp only; split <;> simp [sub_eq_add_neg]), sum_map_ite]
    ring

lemma sizeStage_fst (qs : String) (e : LaborEntry) (acc : ℚ × List String) :
    (sizeStage qs e acc).1 = acc.1 + sizeDelta qs e := by
  unfold sizeStage sizeDelta
  split_ifs with h1 h2 h3 <;> simp_all

lemma kwFold_fst (kws : List String) (cb : String) (acc : ℚ × List String) :
    (kwFold kws cb acc).1 = acc.1 +
      15 * (kws.countP (fun kw => containsSub cb.data kw.data)) := by
  unfold kwFold
  rw [foldl_fst_delta _
    (fun kw => if containsSub cb.data kw.data then (15 : ℚ) else 0)
    (by intro acc x; dsimp only; split <;> simp), sum_map_ite]

lemma fuzzyStage_fst (qn cb : String) (acc : ℚ × List String) :
    (fuzzyStage qn cb acc).1 = acc.1 + (token_set_ratio qn cb : ℚ) * (3 / 10) := rfl

/-- The per-entry score as a closed formula over the five signals. -/
lemma entryScore_fst (qn qs : String) (kws : List String) (e : LaborEntry) :
    (entryScore qn qs kws e).1 =
      40 * (TYPE_ALIASES.countP (fun al => containsSub qn.data al.1.data &&
          al.2.any (fun t => containsSub (combinedText e).data (pyLower t.data))))
        - 25 * conflictCount qn e
        + sizeDelta qs e
        + 15 * (kws.countP (fun kw => containsSub (combinedText e).data kw.data))
        + (token_set_ratio qn (combinedText e) : ℚ) * (3 / 10) := by
  simp only [entryScore]
  rw [fuzzyStage_fst, kwFold_fst, sizeStage_fst, conduitFold_fst, aliasFold_fst]
  ring

lemma entryScoreNoPenalty_fst (qn qs : String) (kws : List String) (e : LaborEntry) :
    (entryScoreNoPenalty qn qs kws e).1 =
      40 * (TYPE_ALIASES.countP (fun al => containsSub qn.data al.1.data &&
          al.2.any (fun t => containsSub (combinedText e).data (pyLower t.data))))
        + sizeDelta qs e
        + 15 * (kws.countP (fun kw => containsSub (combinedText e).data kw.data))
        + (token_set_ratio qn (combinedText e) : ℚ) * (3 / 10) := by
  simp only [entryScoreNoPenalty]
  rw [fuzzyStage_fst, kwFold_fst, sizeStage_fst, aliasFold_fst]
  ring

/-- `x` is an integer number of tenths. -/
def isTenth (x : ℚ) : Prop := ∃ k : ℤ, x = (k : ℚ) / 10

lemma isTenth_add {x y : ℚ} (hx : isTenth x) (hy : isTenth y) : isTenth (x + y) := by
  obtain ⟨k, hk⟩ := hx; obtain ⟨m, hm⟩ := hy
  exact ⟨k + m, by rw [hk, hm]; push_cast; ring⟩

lemma isTenth_sub {x y : ℚ} (hx : isTenth x) (hy : isTenth y) : isTenth (x - y) := by
  obtain ⟨k, hk⟩ := hx; obtain ⟨m, hm⟩ := hy
  exact ⟨k - m, by rw [hk, hm]; push_cast; ring⟩

lemma isTenth_forty (n : ℕ) : isTenth (40 * (n : ℚ)) :=
  ⟨400 * n, by push_cast; ring⟩

lemma isTenth_twentyfive (n : ℕ) : isTenth (25 * (n : ℚ)) :=
  ⟨250 * n, by push_cast; ring⟩

lemma isTenth_fifteen (n : ℕ) : isTenth (15 * (n : ℚ)) :=
  ⟨150 * n, by push_cast; ring⟩

lemma isTenth_sizeDelta (qs : String) (e : LaborEntry) : isTenth (sizeDelta qs e) := by
  unfold sizeDelta
  split
  · exact ⟨300, by norm_num⟩
  · exact ⟨0, by norm_num⟩

lemma isTenth_fuzzy (f : ℕ) : isTenth ((f : ℚ) * (3 / 10)) :=
  ⟨3 * f, by push_cast; ring⟩

lemma entryScore_isTenth (qn qs : String) (kws : List String) (e : LaborEntry) :
    isTenth (entryScore qn qs kws e).1 := by
  rw [entryScore_fst]
  exact isTenth_add (isTenth_add (isTenth_add
    (isTenth_sub (isTenth_forty _) (isTenth_twentyfive _))
    (isTenth_sizeDelta _ _)) (isTenth_fifteen _)) (isTenth_fuzzy _)

lemma roundHalfEven_intCast (k : ℤ) : roundHalfEven (k : ℚ) = k := by
  unfold roundHalfEven
  rw [Int.floor_intCast]
  norm_num

lemma pyRound1_eq_self {x : ℚ} (h : isTenth x) : pyRound1 x = x := by
  obtain ⟨k, hk⟩ := h
  unfold pyRound1
  rw [hk]
  have h10 : (10 : ℚ) * ((k : ℚ) / 10) = (k : ℚ) := by ring
  rw [h10, roundHalfEven_intCast]

lemma score_lt_of_candidateOf {qn qs : String} {kws : List String} {e : LaborEntry}
    {x : MatchResult} (h : candidateOf qn qs kws e = some x) : 20 < x.2.1 := by
  by_cases h20 : 20 < (entryScore qn qs kws e).1
  · simp only [candidateOf, if_pos h20] at h
    injection h with h1
    subst h1
    simpa [pyRound1_eq_self (entryScore_isTenth qn qs kws e)] using h20
  · simp only [candidateOf, if_neg h20] at h
    exact Option.noConfusion h

lemma twenty_lt_of_mem_scoredCandidates {m : LaborMatcher} {q : String} {x : MatchResult}
    (hx : x ∈ scoredCandidates m q) : 20 < x.2.1 := by
  simp only [scoredCandidates, List.mem_filterMap] at hx
  obtain ⟨e, _, he⟩ := hx
  exact score_lt_of_candidateOf he

lemma mem_scoredCandidates_of_mem_search {m : LaborMatcher} {q : String} {n : ℕ}
    {x : MatchResult} (hx : x ∈ search m q n) : x ∈ scoredCandidates m q := by
  unfold search at hx
  exact (List.mem_insertionSort scoreGE).mp (List.mem_of_mem_take hx)

lemma search_empty_table (q : String) (n : ℕ) : search ⟨[]⟩ q n = [] := by
  simp [search, scoredCandidates]

lemma filter_orderedInsert (s : ℚ) (x : MatchResult) (l : List MatchResult) :
    (List.orderedInsert scoreGE x l).filter (fun y => decide (y.2.1 = s)) =
      if x.2.1 = s then x :: l.filter (fun y => decide (y.2.1 = s))
      else l.filter (fun y => decide (y.2.1 = s)) := by
  induction l with
  | nil =>
    by_cases hx : x.2.1 = s <;> simp [List.orderedInsert, List.filter_cons, hx]
  | cons y ys ih =>
    by_cases hr : scoreGE x y
    · rw [List.orderedInsert, if_pos hr]
      by_cases hx : x.2.1 = s <;> simp [List.filter_cons, hx]
    · rw [List.orderedInsert, if_neg hr]
      have hlt : x.2.1 < y.2.1 := lt_of_not_le hr
      by_cases hx : x.2.1 = s
      · have hy : ¬ (y.2.1 = s) := by rw [← hx]; exact ne_of_gt hlt
        simp [List.filter_cons, hy, ih, hx]
      · simp [List.filter_cons, ih, hx]

lemma pyFloatMag_nonneg {t : List Char} {v : ℚ} (h : pyFloatMag t = some v) : 0 ≤ v := by
  simp only [pyFloatMag] at h
  split at h
  · exact Option.noConfusion h
  · split at h
    · injection h with h1
      subst h1
      positivity
    · split at h
      · split at h
        · exact Option.noConfusion h
        · injection h with h1
          subst h1
          split <;> positivity
      · exact Option.noConfusion h

lemma mem_of_mem_pyStrip {c : Char} {l : List Char} (hc : c ∈ pyStrip l) : c ∈ l := by
  unfold pyStrip at hc
  rw [List.mem_reverse] at hc
  have h1 := (List.dropWhile_sublist pyIsSpace).subset hc
  rw [List.mem_reverse] at h1
  exact (List.dropWhile_sublist pyIsSpace).subset h1

lemma pyFloat_nonneg {s : String} {v : ℚ}
    (hnm : ∀ c ∈ s.data, c ≠ '-') (h : pyFloat s = some v) : 0 ≤ v := by
  unfold pyFloat at h
  split at h
  · exact pyFloatMag_nonneg h
  · rename_i r heq
    have : '-' ∈ pyStrip s.data := by rw [heq]; exact List.mem_cons_self _ _
    exact absurd rfl (hnm '-' (mem_of_mem_pyStrip this))
  · exact pyFloatMag_nonneg h

lemma getD_find?_mem (l : List String) (p : String → Bool) :
    (l.find? p).getD "" = "" ∨ (l.find? p).getD "" ∈ l := by
  cases hfind : l.find? p with
  | none => left; rfl
  | some w =>
    right
    have := List.mem_of_find?_eq_some hfind
    simpa using this

lemma qtyMatch_unit {s : List Char} {g1 : List Char} {u : String}
    (h : qtyMatch s = some (g1, u)) : u = "" ∨ u ∈ QTY_UNITS := by
  simp only [qtyMatch] at h
  split at h
  · exact Option.noConfusion h
  · injection h with h1
    simp only [Prod.mk.injEq] at h1
    obtain ⟨_, hu⟩ := h1
    subst hu
    exact getD_find?_mem _ _

lemma qtyMatch_group_chars {s : List Char} {g1 : List Char} {u : String}
    (h : qtyMatch s = some (g1, u)) : ∀ c ∈ g1, c ≠ '-' := by
  simp only [qtyMatch] at h
  split at h
  · exact Option.noConfusion h
  · injection h with h1
    simp only [Prod.mk.injEq] at h1
    obtain ⟨hg, _⟩ := h1
    subst hg
    intro c hc
    rw [List.mem_append, List.mem_append] at hc
    rcases hc with (hc | hc) | hc
    · have := List.mem_takeWhile_imp hc
      intro hcon
      subst hcon
      simp at this
    · have hdot : c = '.' := by
        revert hc
        split
        · intro hc; simpa using hc
        · intro hc; simp at hc
      subst hdot
      decide
    · have := List.mem_takeWhile_imp hc
      intro hcon
      subst hcon
      simp at this

lemma filter_insertionSort (s : ℚ) (l : List MatchResult) :
    (List.insertionSort scoreGE l).filter (fun y => decide (y.2.1 = s)) =
      l.filter (fun y => decide (y.2.1 = s)) := by
  induction l with
  | nil => rfl
  | cons x xs ih =>
    rw [List.insertionSort, filter_orderedInsert]
    by_cases hx : x.2.1 = s <;> simp [List.filter_cons, hx, ih]

/-! ## The claims -/

/-- C1: `calculate_labor_extension` returns `quantity × labor_value` when
the labor unit is `"E"`, `(quantity/100) × labor_value` when it is `"C"`,
`(quantity/1000) × labor_value` when it is `"M"`, falls back to the
per-each formula for any other unit string rather than failing, and the
quantity-unit argument never affects the result. -/
theorem c1_labor_extension (qty lv : ℚ) (qu lu : String) :
    (lu = "E" → calculate_labor_extension qty qu lv lu = qty * lv) ∧
    (lu = "C" → calculate_labor_extension qty qu lv lu = (qty / 100) * lv) ∧
    (lu = "M" → calculate_labor_extension qty qu lv lu = (qty / 1000) * lv) ∧
    (lu ≠ "E" → lu ≠ "C" → lu ≠ "M" →
      calculate_labor_extension qty qu lv lu = qty * lv) ∧
    (∀ qu' : String,
      calculate_labor_extension qty qu' lv lu = calculate_labor_extension qty qu lv lu) := by
  refine ⟨fun h => ?_, fun h => ?_, fun h => ?_, fun h1 h2 h3 => ?_, fun qu' => rfl⟩ <;>
    simp_all [calculate_labor_extension]

/-- C1 witness: the theorem instantiated at concrete inputs, including an
unrecognized labor unit `"Z"`. -/
theorem c1_labor_extension_witness :
    calculate_labor_extension 250 "feet" 5 "C" = (250 / 100) * 5 ∧
    calculate_labor_extension 240 "lot" 2 "Z" = 240 * 2 :=
  ⟨(c1_labor_extension 250 5 "feet" "C").2.1 rfl,
   (c1_labor_extension 240 2 "lot" "Z").2.2.2.1 (by decide) (by decide) (by decide)⟩

/-- C2: over a non-empty reference table and any query string (the empty
string included), the confidence of `best_match` lies in `[0, 100]`; when
no candidate qualifies the result is exactly `(none, 0, "No match
found")`, and otherwise the confidence equals `min 100` of the top stored
score. -/
theorem c2_best_match_confidence (m : LaborMatcher) (q : String) (hne : m.entries ≠ []) :
    (0 ≤ (best_match m q).2.1 ∧ (best_match m q).2.1 ≤ 100) ∧
    (search m q 1 = [] → best_match m q = (none, 0, "No match found")) ∧
    (∀ x rest, search m q 1 = x :: rest →
      best_match m q = (some x.1, min 100 x.2.1, x.2.2)) := by
  refine ⟨?_, ?_, ?_⟩
  · cases hs : search m q 1 with
    | nil =>
      unfold best_match
      rw [hs]
      norm_num
    | cons x rest =>
      obtain ⟨e1, s1, r1⟩ := x
      have hx : ((e1, s1, r1) : MatchResult) ∈ search m q 1 := by
        rw [hs]; exact List.mem_cons_self _ _
      have h20 : (20 : ℚ) < s1 :=
        twenty_lt_of_mem_scoredCandidates (mem_scoredCandidates_of_mem_search hx)
      unfold best_match
      rw [hs]
      refine ⟨le_min (by norm_num) ?_, min_le_left _ _⟩
      exact le_of_lt (lt_trans (by norm_num) h20)
  · intro hs
    unfold best_match
    rw [hs]
  · intro x rest hs
    obtain ⟨e1, s1, r1⟩ := x
    unfold best_match
    rw [hs]

/-- C2 witness: a one-entry table and the empty query. -/
theorem c2_best_match_confidence_witness :
    wm.entries ≠ [] ∧
    (0 ≤ (best_match wm "").2.1 ∧ (best_match wm "").2.1 ≤ 100) :=
  ⟨by decide, (c2_best_match_confidence wm "" (by decide)).1⟩

/-- C3: `search` returns at most `top_n` results, sorted by stored score
descending; entries of equal score appear in original reference-table
order (the equal-score slice of the output is a sublist of the
equal-score slice of the table-order candidate list); and the result is
determined by the query and the table content alone. -/
theorem c3_search_ranking (m : LaborMatcher) (q : String) (n : ℕ) :
    (search m q n).length ≤ n ∧
    (search m q n).Pairwise (fun a b => b.2.1 ≤ a.2.1) ∧
    (∀ s : ℚ, ((search m q n).filter (fun y => decide (y.2.1 = s))).Sublist
      ((scoredCandidates m q).filter (fun y => decide (y.2.1 = s)))) ∧
    (∀ m' : LaborMatcher, m'.entries = m.entries → search m' q n = search m q n) := by
  refine ⟨List.length_take_le n _, ?_, ?_, ?_⟩
  · exact List.Pairwise.sublist (List.take_sublist n _)
      (List.sorted_insertionSort scoreGE (scoredCandidates m q))
  · intro s
    have h1 := List.Sublist.filter (fun y : MatchResult => decide (y.2.1 = s))
      (List.take_sublist n (List.insertionSort scoreGE (scoredCandidates m q)))
    rw [filter_insertionSort] at h1
    exact h1
  · intro m' hm
    obtain ⟨l⟩ := m
    obtain ⟨l'⟩ := m'
    simp only at hm
    subst hm
    rfl

/-- C3 witness: the theorem instantiated at a concrete matcher and query,
with the determinism hypothesis discharged by reflexivity. -/
theorem c3_search_ranking_witness :
    (search wm "3/4 emt" 5).length ≤ 5 ∧ search wm "3/4 emt" 5 = search wm "3/4 emt" 5 :=
  ⟨(c3_search_ranking wm "3/4 emt" 5).1, (c3_search_ranking wm "3/4 emt" 5).2.2.2 wm rfl⟩

/-- C4 (code evaluation): on the comma-only input the numeric-token
pattern matches with group `","`, and `float('')` — which sits *outside*
the `try` block — raises an uncaught `ValueError`, modelled by `none`;
inputs the pattern rejects do degrade to `(0, "")` via the guarded
fallback, and well-formed inputs parse. -/
theorem c4_code_evaluation :
    parse_quantity "," = none ∧
    parse_quantity "garbage" = some (0, "") ∧
    parse_quantity "240 feet" = some (240, "feet") := by
  with_unfolding_all decide

/-- C5 (counterexample): constructing the matcher over an empty decoded
table succeeds — `__init__`/`load_db` perform no emptiness check — and a
query against it silently yields the fixed no-match triple instead of any
failure. -/
theorem c5_counterexample :
    LaborMatcher.init [] = ⟨[]⟩ ∧
    best_match (LaborMatcher.init []) "3/4 emt" = (none, 0, "No match found") := by
  with_unfolding_all decide

/-- C5 (amended): an unloadable table file still fails at matcher
construction (the `open` inside `load_db` raises before the matcher
exists — an I/O event outside this pure embedding), but an *empty* table
does not fail: the matcher constructs with zero entries and every
subsequent query returns the no-match result. -/
theorem c5_amended_empty_table (q : String) (n : ℕ) :
    search (LaborMatcher.init []) q n = [] ∧
    best_match (LaborMatcher.init []) q = (none, 0, "No match found") := by
  constructor
  · exact search_empty_table q n
  · unfold best_match
    have h1 : search (LaborMatcher.init []) q 1 = [] := search_empty_table q 1
    rw [h1]

/-- C6 (counterexample): `_extract_keywords` returns a *list* that keeps
duplicates, and the scoring loop then adds the +15 bonus once per
occurrence: on the query `"emt emt"` the keyword `emt` appears twice,
contributes 30 points, and is reported twice in the match reason. -/
theorem c6_counterexample :
    _extract_keywords (normalize_description "emt emt") = ["emt", "emt"] ∧
    ¬ (_extract_keywords (normalize_description "emt emt")).Nodup ∧
    (kwFold (_extract_keywords (normalize_description "emt emt")) (combinedText entryA)
      (0, [])).1 = 30 ∧
    best_match ⟨[entryA]⟩ "emt emt" =
      (some entryA, 100, "type_match:emt, keyword:emt, keyword:emt, fuzzy:100") := by
  with_unfolding_all decide

/-- C6 (amended): keyword extraction returns an order-preserving list
that keeps duplicates, and the +15 bonus is added once per occurrence in
that list — `15 ×` the number of extracted keywords (with multiplicity)
that occur in the combined text — so a query repeating a word earns the
bonus once per repetition, not at most once per distinct keyword. -/
theorem c6_amended_keyword_bonus (q : String) (combined : String) (acc : ℚ × List String) :
    (kwFold (_extract_keywords q) combined acc).1 = acc.1 +
      15 * ((_extract_keywords q).countP (fun kw => containsSub combined.data kw.data)) :=
  kwFold_fst _ _ _

/-- C7 (counterexample): for the query `"emt box switch fan"` — which
contains `emt` as a whole word — over a two-entry table, the entry with
section `emt` scores 85 > 20, yet `best_match` returns the entry whose
section contains the different conduit token `pvc`: four stacked +40
alias bonuses dwarf the single −25 conflict penalty. -/
theorem c7_counterexample :
    "emt" ∈ (pySplitWs (normalize_description "emt box switch fan").data).map String.mk ∧
    20 < (entryScore (normalize_description "emt box switch fan")
      (extract_size (normalize_description "emt box switch fan"))
      (_extract_keywords (normalize_description "emt box switch fan")) entryA).1 ∧
    "emt" ∈ sectionWords entryA ∧
    (best_match ⟨[entryA, entryB]⟩ "emt box switch fan").1 = some entryB ∧
    "pvc" ∈ sectionWords entryB ∧ "pvc" ∈ conduit_types ∧ "pvc" ≠ "emt" := by
  with_unfolding_all decide

/-- C7 (amended): when the query names a conduit type, an entry's score
is its penalty-free score minus 25 for each *other* conduit-type token
among its section words, so the penalty down-ranks cross-type entries by
a fixed amount — but it is not a guarantee that an entry with `emt` in
its section wins: an entry with enough other bonuses can still be
returned as best match (see the counterexample). -/
theorem c7_amended_conflict_penalty (qn qs : String) (kws : List String) (e : LaborEntry) :
    (entryScore qn qs kws e).1 =
      (entryScoreNoPenalty qn qs kws e).1 - 25 * (conflictCount qn e : ℚ) := by
  rw [entryScore_fst, entryScoreNoPenalty_fst]
  ring

/-- C8 (code evaluation): the `\b`-anchored `SIZE_ALIASES` rewrites do
not behave as whole-token replacements for the dot-initial aliases: a
standalone `".75"` is *not* rewritten (no word boundary between a space
and a dot), `"1.5"` becomes `"11/2"` (the `".5"` alias fires inside the
longer token, and dict order starves the `"1.5"` alias), `"x.75"` and
`"0.75"` are rewritten inside longer tokens; only aliases beginning with
a digit, such as `"1.25"`, behave as the claim states. -/
theorem c8_code_evaluation :
    normalize_description ".75" = ".75" ∧
    normalize_description "1.5" = "11/2" ∧
    normalize_description "x.75" = "x3/4" ∧
    normalize_description "0.75" = "03/4" ∧
    normalize_description "1.25" = "1 1/4" := by
  decide

/-- C9 (counterexample): the bare-number fallback accepts a sign, so
`parse_quantity "-5"` returns the pair `(-5, "")` whose value is
negative, contradicting non-negativity of the Quantity data model. -/
theorem c9_counterexample :
    parse_quantity "-5" = some (-5, "") ∧ (-5 : ℚ) < 0 := by
  with_unfolding_all decide

/-- C9 (amended): whenever `parse_quantity` returns a pair, the unit is
one of `{"", feet, ft, foot, ea, each, lot, box}`; the value is
non-negative whenever the leading numeric-token pattern matched (its
group has no sign), but the bare-number fallback may return a negative
value. -/
theorem c9_amended_quantity_wellformed (s : String) (v : ℚ) (u : String)
    (h : parse_quantity s = some (v, u)) :
    (u = "" ∨ u ∈ QTY_UNITS) ∧
    (qtyMatch (pyStrip s.data) ≠ none → 0 ≤ v) := by
  simp only [parse_quantity] at h
  cases hq : qtyMatch (pyStrip s.data) with
  | none =>
    rw [hq] at h
    constructor
    · cases hf : pyFloat (String.mk ((pyStrip s.data).filter (fun c => c != ','))) with
      | none =>
        rw [hf] at h
        injection h with h1
        simp only [Prod.mk.injEq] at h1
        exact Or.inl h1.2.symm
      | some w =>
        rw [hf] at h
        injection h with h1
        simp only [Prod.mk.injEq] at h1
        exact Or.inl h1.2.symm
    · intro hcon
      exact absurd rfl hcon
  | some gu =>
    obtain ⟨g1, unit⟩ := gu
    rw [hq] at h
    dsimp only at h
    cases hf : pyFloat (String.mk (g1.filter (fun c => c != ','))) with
    | none =>
      rw [hf] at h
      exact Option.noConfusion h
    | some w =>
      rw [hf] at h
      simp only [Option.map_some', Option.some.injEq, Prod.mk.injEq] at h
      obtain ⟨hv, hu⟩ := h
      subst hv
      subst hu
      constructor
      · exact qtyMatch_unit hq
      · intro _
        refine pyFloat_nonneg ?_ hf
        intro c hc
        have hcg : c ∈ g1 := by
          have := List.mem_filter.mp hc
          exact this.1
        exact qtyMatch_group_chars hq c hcg

/-- C9 amended witness: the theorem instantiated at `"240 feet"`. -/
theorem c9_amended_quantity_wellformed_witness :
    (("feet" : String) = "" ∨ ("feet" : String) ∈ QTY_UNITS) ∧
    (qtyMatch (pyStrip "240 feet".data) ≠ none → 0 ≤ (240 : ℚ)) :=
  c9_amended_quantity_wellformed "240 feet" 240 "feet" (by with_unfolding_all decide)

/-- C10: whenever `best_match` returns an entry, its confidence is
strictly greater than 20 and at most 100: an entry becomes a candidate
only when its raw score exceeds 20, every raw score is a whole number of
tenths (so rounding to one decimal is exact and preserves `> 20`), and
the confidence is `min 100` of that stored score — confidence values in
`(0, 20]` never occur. -/
theorem c10_confidence_gap (m : LaborMatcher) (q : String) (e : LaborEntry) (c : ℚ)
    (r : String) (h : best_match m q = (some e, c, r)) : 20 < c ∧ c ≤ 100 := by
  unfold best_match at h
  cases hs : search m q 1 with
  | nil =>
    rw [hs] at h
    injection h with h1
    exact Option.noConfusion h1
  | cons x rest =>
    obtain ⟨e1, s1, r1⟩ := x
    rw [hs] at h
    have hx : ((e1, s1, r1) : MatchResult) ∈ search m q 1 := by
      rw [hs]; exact List.mem_cons_self _ _
    have h20 : (20 : ℚ) < s1 :=
      twenty_lt_of_mem_scoredCandidates (mem_scoredCandidates_of_mem_search hx)
    injection h with h1 h2
    injection h2 with h3 h4
    subst h3
    exact ⟨lt_min (by norm_num) h20, min_le_left _ _⟩

/-- C10 witness: a concrete matcher and query on which `best_match`
returns an entry. -/
theorem c10_confidence_gap_witness :
    20 < (best_match wm "3/4 emt").2.1 ∧ (best_match wm "3/4 emt").2.1 ≤ 100 :=
  c10_confidence_gap wm "3/4 emt" entryEMT (best_match wm "3/4 emt").2.1
    (best_match wm "3/4 emt").2.2 (by with_unfolding_all decide)

end ElectricianTool
